import Mathlib

/-!
Verification of the lead-reconciliation engine: a shallow embedding of the
validator (`src/validator.ts`), the resilient API client (`src/apiClient.ts`)
and the batch reconciliation loop (`processLeads`), together with theorems
settling the specification's claims about them.
-/

namespace LeadSync

/-- A lead record: `interface Lead { name; email; company; source }`. -/
structure Lead where
  name : String
  email : String
  company : String
  source : String
deriving DecidableEq, Repr

/-- Result of `validateLead`: `{ isValid, errors, normalizedLead? }`. -/
structure ValidationResult where
  isValid : Bool
  errors : List String
  normalizedLead : Option Lead
deriving DecidableEq, Repr

/-- `VALID_SOURCES` from `src/validator.ts`. -/
def VALID_SOURCES : List String :=
  ["LinkedIn", "Webinar", "Website", "Conference", "Referral", "Twitter"]

/-- JavaScript's `\s` character class (whitespace as the regexes and
`String.prototype.trim` see it): ASCII whitespace plus the Unicode space
separators used by ECMAScript. -/
def isSpaceJS (c : Char) : Bool :=
  c = ' ' || c = '\t' || c = '\n' || c.val = 11 || c.val = 12 || c = '\r' ||
  c.val = 0xa0 || c.val = 0x1680 || (0x2000 ≤ c.val && c.val ≤ 0x200a) ||
  c.val = 0x2028 || c.val = 0x2029 || c.val = 0x202f || c.val = 0x205f ||
  c.val = 0x3000 || c.val = 0xfeff

/-- `s.trim()` on a character list: drop JS whitespace from both ends. -/
def jsTrimList (cs : List Char) : List Char :=
  ((cs.dropWhile isSpaceJS).reverse.dropWhile isSpaceJS).reverse

/-- JavaScript `String.prototype.trim`. -/
def jsTrim (s : String) : String :=
  ⟨jsTrimList s.data⟩

/-- `replace(/\s+/g, ' ')`: each maximal run of JS whitespace becomes a
single space (all but the last character of a run are dropped, the last one
becomes `' '`). -/
def collapseWsList : List Char → List Char
  | [] => []
  | [c] => if isSpaceJS c then [' '] else [c]
  | c :: d :: rest =>
    if isSpaceJS c && isSpaceJS d then collapseWsList (d :: rest)
    else (if isSpaceJS c then ' ' else c) :: collapseWsList (d :: rest)

/-- `normalizeCompany` from `src/validator.ts`:
`company.trim().replace(/\s+/g, ' ')`. -/
def normalizeCompany (company : String) : String :=
  ⟨collapseWsList (jsTrimList company.data)⟩

/-- Does the domain part of an email (the text after the `@`) contain a `.`
that has at least one character on each side?  This is what the sub-pattern
`[^\s@]+\.[^\s@]+` requires once we know the text is free of whitespace and
`@` (the `[^\s@]+` pieces may themselves contain further dots). -/
def hasInteriorDot (d : List Char) : Bool :=
  ((d.drop 1).dropLast).contains '.'

/-- `EMAIL_REGEX = /^[^\s@]+@[^\s@]+\.[^\s@]+$/` from `src/validator.ts`:
no whitespace anywhere, exactly one `@` with a nonempty local part, and the
domain part contains an interior dot. -/
def emailMatches (s : String) : Bool :=
  let cs := s.data
  let local_ := cs.takeWhile (fun c => c ≠ '@')
  let rest := cs.dropWhile (fun c => c ≠ '@')
  cs.all (fun c => !isSpaceJS c) &&
  cs.countP (fun c => c = '@') = 1 &&
  !local_.isEmpty &&
  match rest with
  | _ :: domain => !domain.isEmpty && hasInteriorDot domain
  | [] => false

/-- `isEmpty` helper from `src/validator.ts`: `!value || value.trim() === ''`
(a missing/empty string, or one that trims to nothing). -/
def isEmptyStr (s : String) : Bool :=
  s = "" || jsTrim s = ""

/-- The "Source must be one of: ..." message built by `validateLead`. -/
def sourceListMessage : String :=
  "Source must be one of: " ++ String.intercalate ", " VALID_SOURCES

/-- `validateLead` from `src/validator.ts`: every rule is evaluated (no
short-circuit), messages are accumulated in source order (name, company,
email format, source), and a normalized copy of the lead is attached only
when every rule passed. -/
def validateLead (lead : Lead) : ValidationResult :=
  let errors :=
    (if isEmptyStr lead.name then ["Name is required"] else []) ++
    (if isEmptyStr lead.company then ["Company is required"] else []) ++
    (if lead.email = "" || !emailMatches lead.email then
      ["Invalid email format"] else []) ++
    (if isEmptyStr lead.source then ["Source is required"]
     else if !VALID_SOURCES.contains lead.source then [sourceListMessage]
     else [])
  { isValid := errors.isEmpty
    errors := errors
    normalizedLead :=
      if errors.isEmpty then
        some { lead with company := normalizeCompany lead.company }
      else none }

/-! ## Resilient API client (`src/apiClient.ts`) -/

/-- The shape of a thrown error as the client inspects it: an optional
transport error `code`, an optional HTTP `response.status`, the axios marker,
and the `message`.  A plain `Error` (for example the malformed-response
error) has no code, no status and no axios marker. -/
structure ApiError where
  message : String
  status : Option Nat
  code : Option String
  isAxiosError : Bool
deriving DecidableEq, Repr

/-- `RETRYABLE_STATUS_CODES = [429, 500, 502, 503, 504]`. -/
def RETRYABLE_STATUS_CODES : List Nat := [429, 500, 502, 503, 504]

/-- `RETRYABLE_ERROR_CODES = ["ECONNABORTED", "ETIMEDOUT"]`. -/
def RETRYABLE_ERROR_CODES : List String := ["ECONNABORTED", "ETIMEDOUT"]

/-- `isRetryable` from `src/apiClient.ts`.  The truthiness guards
(`error.code && ...`, `error.response?.status && ...`) are modelled by the
explicit `≠ ""` / `≠ 0` tests. -/
def isRetryable (e : ApiError) : Bool :=
  (match e.code with
   | some c => c ≠ "" && RETRYABLE_ERROR_CODES.contains c
   | none => false) ||
  (match e.status with
   | some s => s ≠ 0 && RETRYABLE_STATUS_CODES.contains s
   | none => false)

/-- The spec's classification, stated in its own words: a failure is
retryable iff it is a connection-timeout class failure (`ECONNABORTED` /
`ETIMEDOUT`), an explicit rate-limit signal (429), or a server-side
transient failure of the 5xx status class (500/502/503/504, the transient
codes the spec enumerates). -/
def retryableSpec (e : ApiError) : Prop :=
  (∃ c, e.code = some c ∧ (c = "ECONNABORTED" ∨ c = "ETIMEDOUT")) ∨
  e.status = some 429 ∨
  (∃ s, e.status = some s ∧ (s = 500 ∨ s = 502 ∨ s = 503 ∨ s = 504))

/-- `MAX_RETRIES = 3`. -/
def MAX_RETRIES : Nat := 3

/-- The aggregate error thrown once every attempt is exhausted:
`Max retries exhausted after 3 attempts. Last error: <message>`.  It is a
plain `Error`, so it carries no status and no code. -/
def exhaustedError (last : Option ApiError) : ApiError :=
  { message := "Max retries exhausted after " ++ toString MAX_RETRIES ++
      " attempts. Last error: " ++ (match last with
        | some e => e.message
        | none => "undefined")
    status := none, code := none, isAxiosError := false }

/-- What one run of `withRetry` produced: the value returned or error
thrown, how many times `fn` was invoked, and the backoff delays (in ms)
computed between consecutive attempts. -/
structure RetryResult (α : Type) where
  result : Except ApiError α
  calls : Nat
  delays : List Nat
deriving Repr

/-- The `for (let attempt = 1; attempt <= MAX_RETRIES; attempt++)` loop of
`withRetry`.  `attempts` is the list of remaining attempt numbers; `fn`
gives each attempt's outcome; a computed delay `BASE_DELAY * 2^(attempt-1)`
is recorded after every retryable failure that is not the final attempt. -/
def retryGo {α : Type} (fn : Nat → Except ApiError α) (baseDelay : Nat) :
    List Nat → List Nat → Option ApiError → Nat → RetryResult α
  | [], delays, lastErr, calls =>
    { result := .error (exhaustedError lastErr), calls := calls
      delays := delays.reverse }
  | a :: rest, delays, _, calls =>
    match fn a with
    | .ok v => { result := .ok v, calls := calls + 1, delays := delays.reverse }
    | .error err =>
      if !isRetryable err then
        { result := .error err, calls := calls + 1, delays := delays.reverse }
      else if rest.isEmpty then
        { result := .error (exhaustedError (some err)), calls := calls + 1
          delays := delays.reverse }
      else
        retryGo fn baseDelay rest ((baseDelay * 2 ^ (a - 1)) :: delays)
          (some err) (calls + 1)

/-- `withRetry` from `src/apiClient.ts`, with the attempt outcomes supplied
as an oracle `fn : attempt number → outcome` and the base delay as a
parameter (`BASE_DELAY` is 0 under test, 1000 in production). -/
def withRetry {α : Type} (fn : Nat → Except ApiError α) (baseDelay : Nat) :
    RetryResult α :=
  retryGo fn baseDelay (List.range' 1 MAX_RETRIES) [] none 0

/-! ### Response-shape validation -/

/-- A JSON-ish runtime value as the response-handling code inspects it.
`null` also stands for `undefined`. -/
inductive JVal where
  | str (s : String)
  | bool (b : Bool)
  | num (n : Int)
  | null
  | obj (fields : List (String × JVal))

/-- JavaScript `String(v)` on the values we model. -/
def jsToString : JVal → String
  | .str s => s
  | .bool b => cond b "true" "false"
  | .num n => toString n
  | .null => "null"
  | .obj _ => "[object Object]"

/-- Property read `o[k]`: the first binding of `k`, if any. -/
def getField (o : List (String × JVal)) (k : String) : Option JVal :=
  (o.find? (fun p => p.1 = k)).map (fun p => p.2)

/-- The `in` operator: is key `k` present on the object? -/
def hasKey (o : List (String × JVal)) (k : String) : Bool :=
  (o.find? (fun p => p.1 = k)).isSome

/-- `v ?? ""` followed by `String(...)`: nullish (absent or null) becomes
the empty string, anything else is coerced. -/
def strOrEmpty (v : Option JVal) : String :=
  match v with
  | none => ""
  | some .null => ""
  | some v => jsToString v

/-- The malformed-response error thrown by the response validators: a plain
`Error`, so `isRetryable` never accepts it. -/
def malformedError : ApiError :=
  { message := "Malformed API response: missing expected fields (name, email)"
    status := none, code := none, isAxiosError := false }

/-- The optional unwrapping step
`record.lead && typeof record.lead === "object" ? record.lead : data`:
a truthy object-valued `lead` field is unwrapped, anything else leaves the
reply as it is. -/
def unwrapLead (o : List (String × JVal)) : List (String × JVal) :=
  match getField o "lead" with
  | some (.obj l) => l
  | _ => o

/-- `extractLeadFromResponse` from `src/apiClient.ts`: reject non-objects;
unwrap a truthy object-valued `lead` field if present; require `name` and
`email` keys; build a lead object coercing each field to a string, with
missing/null `company` and `source` replaced by `""`. -/
def extractLeadFromResponse (data : JVal) : Except ApiError JVal :=
  match data with
  | .obj o =>
    let leadData := unwrapLead o
    if hasKey leadData "name" && hasKey leadData "email" then
      .ok (.obj
        [("name", .str (strOrEmpty (getField leadData "name"))),
         ("email", .str (strOrEmpty (getField leadData "email"))),
         ("company", .str (strOrEmpty (getField leadData "company"))),
         ("source", .str (strOrEmpty (getField leadData "source")))])
    else
      .error malformedError
  | _ => .error malformedError

/-- `validateLeadResponse` from `src/apiClient.ts`: nested `lead` objects go
through `extractLeadFromResponse`; a flat object is only checked for the
`name` and `email` keys and returned as-is (the `data as Lead` cast). -/
def validateLeadResponse (data : JVal) : Except ApiError JVal :=
  match data with
  | .obj o =>
    match getField o "lead" with
    | some (.obj _) => extractLeadFromResponse data
    | _ =>
      if hasKey o "name" && hasKey o "email" then .ok data
      else .error malformedError
  | _ => .error malformedError

/-- What the wire produced for one HTTP call: a 2xx response with a JSON
body, or a thrown error. -/
inductive WireOutcome where
  | success (data : JVal)
  | failure (e : ApiError)

/-- One attempt of the function `lookupLead` passes to `withRetry`: a
`{ found: false }` body yields `null` (not found); any other body goes
through `validateLeadResponse`; in the `catch`, an axios error with status
404 also yields `null`, and every other error is rethrown. -/
def lookupAttempt (w : WireOutcome) : Except ApiError (Option JVal) :=
  let tryBody : Except ApiError (Option JVal) :=
    match w with
    | .success data =>
      match data with
      | .obj o =>
        match getField o "found" with
        | some (.bool false) => .ok none
        | _ => (validateLeadResponse data).map some
      | _ => (validateLeadResponse data).map some
    | .failure e => .error e
  match tryBody with
  | .error e =>
    if e.isAxiosError && e.status = some 404 then .ok none else .error e
  | .ok v => .ok v

/-- One attempt of the functions `createLead`/`updateLead` pass to
`withRetry`: a thrown error propagates, a 2xx body goes through
`validateLeadResponse`. -/
def mutationAttempt (w : WireOutcome) : Except ApiError JVal :=
  match w with
  | .success data => validateLeadResponse data
  | .failure e => .error e

/-! ## Reconciliation engine (`processLeads` and friends) -/

/-- JavaScript `String.prototype.toLowerCase` restricted to ASCII letters,
which is how the engine builds the duplicate key `lead.email.toLowerCase()`. -/
def jsToLower (s : String) : String :=
  ⟨s.data.map Char.toLower⟩

/-- The `action` field of a per-record result:
`"created" | "updated" | "skipped" | "error"`. -/
inductive LeadAction where
  | created
  | updated
  | skipped
  | error
deriving DecidableEq, Repr

/-- A per-record result `{ lead, action, error? }`. -/
structure ProcessResult where
  lead : Lead
  action : LeadAction
  error : Option String
deriving DecidableEq, Repr

/-- The batch summary `{ total, created, updated, skipped, errors }`. -/
structure ProcessSummary where
  total : Nat
  created : Nat
  updated : Nat
  skipped : Nat
  errors : Nat
deriving DecidableEq, Repr

/-- A remote call made by the engine (one `lookupLead` / `createLead` /
`updateLead` invocation, retries included). -/
inductive RemoteCall where
  | lookup (email : String)
  | create (lead : Lead)
  | update (lead : Lead)
deriving DecidableEq, Repr

/-- The remote as the engine sees it, one response per call: each client
call either returns, or throws an `ApiError` (the error `withRetry` let
through or its aggregate exhaustion error).  The `Nat` argument is the
index of the call in the whole run, so behaviour may vary over time. -/
structure Remote where
  onLookup : Nat → String → Except ApiError (Option Lead)
  onCreate : Nat → Lead → Except ApiError Lead
  onUpdate : Nat → Lead → Except ApiError Lead

/-- `leadsMatch` from the engine: name and source compared exactly, email
case-insensitively, company after `normalizeCompany` on both sides. -/
def leadsMatch (incoming existing : Lead) : Bool :=
  incoming.name = existing.name &&
  jsToLower incoming.email = jsToLower existing.email &&
  normalizeCompany incoming.company = normalizeCompany existing.company &&
  incoming.source = existing.source

/-- What one iteration of the engine loop produced: the pushed result, the
updated seen-set, the updated remote-call counter, and the remote calls
made for this record, in order. -/
structure StepOutput where
  result : ProcessResult
  seen : List String
  ctr : Nat
  callsMade : List RemoteCall
deriving Repr

/-- One iteration of the `for (const lead of leads)` loop of `processLeads`:
validate; check/update the batch seen-set; then lookup and create/update
inside a per-lead `catch` whose 409 branch maps a conflict to `skipped`. -/
def stepLead (remote : Remote) (seen : List String) (ctr : Nat)
    (lead : Lead) : StepOutput :=
  let validation := validateLead lead
  if !validation.isValid then
    { result := { lead := lead, action := .error
                  error := some (String.intercalate "; " validation.errors) }
      seen := seen, ctr := ctr, callsMade := [] }
  else
    let emailKey := jsToLower lead.email
    if seen.contains emailKey then
      { result := { lead := lead, action := .skipped, error := none }
        seen := seen, ctr := ctr, callsMade := [] }
    else
      let seen := emailKey :: seen
      match remote.onLookup ctr lead.email with
      | .error e =>
        if e.status = some 409 then
          { result := { lead := lead, action := .skipped, error := none }
            seen := seen, ctr := ctr + 1
            callsMade := [.lookup lead.email] }
        else
          { result := { lead := lead, action := .error
                        error := some e.message }
            seen := seen, ctr := ctr + 1
            callsMade := [.lookup lead.email] }
      | .ok (some existing) =>
        if !leadsMatch lead existing then
          match remote.onUpdate (ctr + 1) lead with
          | .ok _ =>
            { result := { lead := lead, action := .updated, error := none }
              seen := seen, ctr := ctr + 2
              callsMade := [.lookup lead.email, .update lead] }
          | .error e =>
            if e.status = some 409 then
              { result := { lead := lead, action := .skipped, error := none }
                seen := seen, ctr := ctr + 2
                callsMade := [.lookup lead.email, .update lead] }
            else
              { result := { lead := lead, action := .error
                            error := some e.message }
                seen := seen, ctr := ctr + 2
                callsMade := [.lookup lead.email, .update lead] }
        else
          { result := { lead := lead, action := .skipped, error := none }
            seen := seen, ctr := ctr + 1
            callsMade := [.lookup lead.email] }
      | .ok none =>
        match remote.onCreate (ctr + 1) lead with
        | .ok _ =>
          { result := { lead := lead, action := .created, error := none }
            seen := seen, ctr := ctr + 2
            callsMade := [.lookup lead.email, .create lead] }
        | .error e =>
          if e.status = some 409 then
            { result := { lead := lead, action := .skipped, error := none }
              seen := seen, ctr := ctr + 2
              callsMade := [.lookup lead.email, .create lead] }
          else
            { result := { lead := lead, action := .error
                          error := some e.message }
              seen := seen, ctr := ctr + 2
              callsMade := [.lookup lead.email, .create lead] }

/-- The engine loop: every record is processed in input order, each one
yielding exactly one result (paired here with the remote calls it made). -/
def runLeads (remote : Remote) (ctr : Nat) (seen : List String) :
    List Lead → List (ProcessResult × List RemoteCall)
  | [] => []
  | lead :: rest =>
    let out := stepLead remote seen ctr lead
    (out.result, out.callsMade) :: runLeads remote out.ctr out.seen rest

/-- The summary fold at the end of `processLeads`: `total` is the number of
results, the other four are filter-counts over `action`. -/
def calcSummary (results : List ProcessResult) : ProcessSummary :=
  { total := results.length
    created := (results.filter (fun r => r.action = .created)).length
    updated := (results.filter (fun r => r.action = .updated)).length
    skipped := (results.filter (fun r => r.action = .skipped)).length
    errors := (results.filter (fun r => r.action = .error)).length }

/-- The output of `processLeads`: `{ results, summary }`. -/
structure ProcessOutput where
  results : List ProcessResult
  summary : ProcessSummary
deriving Repr

/-- `processLeads` from the engine: run the loop from an empty seen-set,
then fold the summary. -/
def processLeads (remote : Remote) (leads : List Lead) : ProcessOutput :=
  let results := (runLeads remote 0 [] leads).map (fun p => p.1)
  { results := results, summary := calcSummary results }

/-- The per-record remote-call trace of a run, aligned with
`(processLeads remote leads).results`. -/
def recordCalls (remote : Remote) (leads : List Lead) :
    List (List RemoteCall) :=
  (runLeads remote 0 [] leads).map (fun p => p.2)

/-- How one loop iteration evolves the batch seen-set, extracted from
`stepLead`: only validation-passing leads can add their key, and a key is
added at most once. -/
def stepSeen (seen : List String) (lead : Lead) : List String :=
  if (validateLead lead).isValid then
    if seen.contains (jsToLower lead.email) then seen
    else jsToLower lead.email :: seen
  else seen

/-! ## Concrete inputs used by the witnesses -/

/-- A valid lead. -/
def leadA : Lead := ⟨"A", "a@x.com", "Acme", "LinkedIn"⟩

/-- An invalid lead (empty name) sharing `leadA`'s email. -/
def leadBadName : Lead := ⟨"", "a@x.com", "Acme", "LinkedIn"⟩

/-- A valid lead with `leadA`'s email in different case and another company. -/
def leadA2 : Lead := ⟨"A", "A@X.com", "New Corp", "Webinar"⟩

/-- A remote copy of `leadA` that differs in (normalized) company. -/
def leadAOld : Lead := ⟨"A", "a@x.com", "Old Corp", "LinkedIn"⟩

/-- A remote on which every lookup misses and every mutation succeeds. -/
def emptyRemote : Remote :=
  { onLookup := fun _ _ => .ok none
    onCreate := fun _ l => .ok l
    onUpdate := fun _ l => .ok l }

/-- A remote on which every lookup finds `leadAOld` and every mutation
succeeds. -/
def foundRemote : Remote :=
  { onLookup := fun _ _ => .ok (some leadAOld)
    onCreate := fun _ l => .ok l
    onUpdate := fun _ l => .ok l }

/-- A conflict error: HTTP 409 from the remote. -/
def conflictError : ApiError :=
  { message := "Request failed with status code 409"
    status := some 409, code := none, isAxiosError := true }

/-- A transient server error: HTTP 500 from the remote. -/
def serverError : ApiError :=
  { message := "Request failed with status code 500"
    status := some 500, code := none, isAxiosError := true }

/-- A non-retryable client error: HTTP 400 from the remote. -/
def badRequestError : ApiError :=
  { message := "Request failed with status code 400"
    status := some 400, code := none, isAxiosError := true }

/-- A remote on which every lookup finds `leadAOld` and every update fails
with a 409 conflict. -/
def updateConflictRemote : Remote :=
  { onLookup := fun _ _ => .ok (some leadAOld)
    onCreate := fun _ l => .ok l
    onUpdate := fun _ _ => .error conflictError }

/-- A remote on which every lookup finds `leadAOld` and every update fails
with a non-conflict 400 error. -/
def updateFailRemote : Remote :=
  { onLookup := fun _ _ => .ok (some leadAOld)
    onCreate := fun _ l => .ok l
    onUpdate := fun _ _ => .error badRequestError }

/-! ## Shared lemmas -/

theorem stepLead_result_lead (remote : Remote) (seen : List String)
    (ctr : Nat) (lead : Lead) :
    (stepLead remote seen ctr lead).result.lead = lead := by
  unfold stepLead
  dsimp only
  repeat' split
  all_goals rfl

theorem runLeads_length (remote : Remote) (ctr : Nat) (seen : List String) :
    ∀ leads : List Lead, (runLeads remote ctr seen leads).length = leads.length := by
  intro leads
  induction leads generalizing ctr seen with
  | nil => rfl
  | cons lead rest ih => simp [runLeads, ih]

theorem runLeads_lead (remote : Remote) :
    ∀ (leads : List Lead) (ctr : Nat) (seen : List String) (i : Nat),
      ((runLeads remote ctr seen leads)[i]?).map (fun p => p.1.lead) = leads[i]? := by
  intro leads
  induction leads with
  | nil => intro ctr seen i; rfl
  | cons lead rest ih =>
    intro ctr seen i
    cases i with
    | zero =>
      simp only [runLeads, List.getElem?_cons_zero, Option.map_some']
      rw [stepLead_result_lead]
    | succ j =>
      simp only [runLeads, List.getElem?_cons_succ]
      exact ih _ _ j

theorem action_counts (results : List ProcessResult) :
    (results.filter (fun r => r.action = .created)).length +
    (results.filter (fun r => r.action = .updated)).length +
    (results.filter (fun r => r.action = .skipped)).length +
    (results.filter (fun r => r.action = .error)).length = results.length := by
  induction results with
  | nil => rfl
  | cons r rs ih =>
    cases h : r.action <;> simp [List.filter_cons, h] <;> omega

theorem stepLead_seen_eq (remote : Remote) (seen : List String) (ctr : Nat)
    (lead : Lead) : (stepLead remote seen ctr lead).seen = stepSeen seen lead := by
  unfold stepLead stepSeen
  dsimp only
  repeat' split
  all_goals simp_all

theorem mem_stepSeen (seen : List String) (lead : Lead) (k : String) :
    k ∈ stepSeen seen lead ↔
      k ∈ seen ∨
        ((validateLead lead).isValid = true ∧ k = jsToLower lead.email) := by
  unfold stepSeen
  split <;> rename_i hv
  · split <;> rename_i hc
    · simp only [hv, true_and]
      exact ⟨Or.inl, fun h => h.elim id (fun hk => hk ▸ List.elem_iff.mp hc)⟩
    · simp [hv, List.mem_cons, or_comm]
  · simp [hv]

theorem stepLead_invalid (remote : Remote) (seen : List String) (ctr : Nat)
    (lead : Lead) (h : (validateLead lead).isValid = false) :
    stepLead remote seen ctr lead =
      { result := { lead := lead, action := .error
                    error := some (String.intercalate "; " (validateLead lead).errors) }
        seen := seen, ctr := ctr, callsMade := [] } := by
  unfold stepLead
  simp [h]

theorem stepLead_dup (remote : Remote) (seen : List String) (ctr : Nat)
    (lead : Lead) (hv : (validateLead lead).isValid = true)
    (hs : seen.contains (jsToLower lead.email) = true) :
    stepLead remote seen ctr lead =
      { result := { lead := lead, action := .skipped, error := none }
        seen := seen, ctr := ctr, callsMade := [] } := by
  have hs' : jsToLower lead.email ∈ seen := List.elem_iff.mp hs
  unfold stepLead
  simp [hv, hs']

theorem runLeads_cons (remote : Remote) (ctr : Nat) (seen : List String)
    (lead : Lead) (rest : List Lead) :
    runLeads remote ctr seen (lead :: rest) =
      ((stepLead remote seen ctr lead).result,
       (stepLead remote seen ctr lead).callsMade) ::
        runLeads remote (stepLead remote seen ctr lead).ctr
          (stepLead remote seen ctr lead).seen rest := rfl

/-- For an invalid lead at position `i`, the loop pushes an error result
carrying the joined validation messages and makes no remote call, whatever
the seen-set and call counter were when the loop reached it. -/
theorem runLeads_invalid_at (remote : Remote) :
    ∀ (leads : List Lead) (ctr : Nat) (seen : List String) (i : Nat) (lead : Lead),
      leads[i]? = some lead → (validateLead lead).isValid = false →
      (runLeads remote ctr seen leads)[i]? =
        some ({ lead := lead, action := .error
                error := some (String.intercalate "; " (validateLead lead).errors) },
              []) := by
  intro leads
  induction leads with
  | nil => intro _ _ i _ h _; simp at h
  | cons head rest ih =>
    intro ctr seen i lead hget hinv
    cases i with
    | zero =>
      simp only [List.getElem?_cons_zero, Option.some.injEq] at hget
      subst hget
      rw [runLeads_cons, List.getElem?_cons_zero, stepLead_invalid _ _ _ _ hinv]
    | succ j =>
      rw [List.getElem?_cons_succ] at hget
      rw [runLeads_cons, List.getElem?_cons_succ]
      exact ih _ _ j lead hget hinv

/-- A valid lead whose key was already preceded by a valid lead with the
same key — or whose key is already in the seen-set — is pushed as a
`skipped` result with no remote call, whatever the remote does. -/
theorem runLeads_dup_skip (remote : Remote) :
    ∀ (leads : List Lead) (ctr : Nat) (seen : List String) (j : Nat) (leadj : Lead),
      leads[j]? = some leadj → (validateLead leadj).isValid = true →
      ((∃ i leadi, i < j ∧ leads[i]? = some leadi ∧
          (validateLead leadi).isValid = true ∧
          jsToLower leadi.email = jsToLower leadj.email) ∨
        jsToLower leadj.email ∈ seen) →
      (runLeads remote ctr seen leads)[j]? =
        some ({ lead := leadj, action := .skipped, error := none }, []) := by
  intro leads
  induction leads with
  | nil => intro _ _ j _ h _ _; simp at h
  | cons head rest ih =>
    intro ctr seen j leadj hget hv hcond
    cases j with
    | zero =>
      simp only [List.getElem?_cons_zero, Option.some.injEq] at hget
      subst hget
      have hmem : jsToLower head.email ∈ seen := by
        rcases hcond with ⟨i, _, hi, _⟩ | hmem
        · exact absurd hi (Nat.not_lt_zero i)
        · exact hmem
      rw [runLeads_cons, List.getElem?_cons_zero,
        stepLead_dup _ _ _ _ hv (List.elem_iff.mpr hmem)]
    | succ j' =>
      rw [List.getElem?_cons_succ] at hget
      rw [runLeads_cons, List.getElem?_cons_succ]
      apply ih _ _ j' leadj hget hv
      rw [stepLead_seen_eq]
      rcases hcond with ⟨i, leadi, hi, hgeti, hvi, hkey⟩ | hmem
      · cases i with
        | zero =>
          right
          simp only [List.getElem?_cons_zero, Option.some.injEq] at hgeti
          subst hgeti
          rw [mem_stepSeen]
          exact Or.inr ⟨hvi, hkey.symm⟩
        | succ i' =>
          left
          rw [List.getElem?_cons_succ] at hgeti
          exact ⟨i', leadi, Nat.lt_of_succ_lt_succ hi, hgeti, hvi, hkey⟩
      · right
        rw [mem_stepSeen]
        exact Or.inl hmem

/-- A valid, not-yet-seen lead starts its remote interaction with a lookup. -/
theorem stepLead_calls_lookup (remote : Remote) (seen : List String)
    (ctr : Nat) (lead : Lead) (hv : (validateLead lead).isValid = true)
    (hnmem : jsToLower lead.email ∉ seen) :
    ∃ tail, (stepLead remote seen ctr lead).callsMade =
      .lookup lead.email :: tail := by
  cases hl : remote.onLookup ctr lead.email with
  | error e =>
    by_cases h409 : e.status = some 409 <;> simp [stepLead, hv, hnmem, hl, h409]
  | ok v =>
    cases v with
    | none =>
      cases hc : remote.onCreate (ctr + 1) lead with
      | error e =>
        by_cases h409 : e.status = some 409 <;>
          simp [stepLead, hv, hnmem, hl, hc, h409]
      | ok _ => simp [stepLead, hv, hnmem, hl, hc]
    | some existing =>
      by_cases hm : leadsMatch lead existing
      · simp [stepLead, hv, hnmem, hl, hm]
      · cases hu : remote.onUpdate (ctr + 1) lead with
        | error e =>
          by_cases h409 : e.status = some 409 <;>
            simp [stepLead, hv, hnmem, hl, hm, hu, h409]
        | ok _ => simp [stepLead, hv, hnmem, hl, hm, hu]

/-- The first validation-passing occurrence of a key performs a lookup. -/
theorem runLeads_first_valid_lookup (remote : Remote) :
    ∀ (leads : List Lead) (ctr : Nat) (seen : List String) (j : Nat) (leadj : Lead),
      leads[j]? = some leadj → (validateLead leadj).isValid = true →
      (∀ i leadi, i < j → leads[i]? = some leadi →
        (validateLead leadi).isValid = true →
        jsToLower leadi.email ≠ jsToLower leadj.email) →
      jsToLower leadj.email ∉ seen →
      ∃ res tail, (runLeads remote ctr seen leads)[j]? =
        some (res, .lookup leadj.email :: tail) := by
  intro leads
  induction leads with
  | nil => intro _ _ j _ h; simp at h
  | cons head rest ih =>
    intro ctr seen j leadj hget hv hfirst hnmem
    cases j with
    | zero =>
      simp only [List.getElem?_cons_zero, Option.some.injEq] at hget
      subst hget
      rw [runLeads_cons, List.getElem?_cons_zero]
      obtain ⟨tail, htail⟩ :=
        stepLead_calls_lookup remote seen ctr head hv hnmem
      exact ⟨_, tail, by rw [htail]⟩
    | succ j' =>
      rw [List.getElem?_cons_succ] at hget
      rw [runLeads_cons, List.getElem?_cons_succ]
      apply ih _ _ j' leadj hget hv
      · intro i leadi hi hgeti hvi
        exact hfirst (i + 1) leadi (Nat.succ_lt_succ hi)
          (by rwa [List.getElem?_cons_succ]) hvi
      · rw [stepLead_seen_eq, mem_stepSeen]
        rintro (hmem | ⟨hvhead, hkey⟩)
        · exact hnmem hmem
        · exact hfirst 0 head (Nat.zero_lt_succ j') List.getElem?_cons_zero
            hvhead hkey.symm

/-! ## Claim theorems -/

/-- C1 counterexample: in the batch `[leadBadName, leadA]` the normalized
key `"a@x.com"` occurs twice, and the first occurrence is rejected by
validation.  Contrary to the claim, the second occurrence is then *not*
resolved as a duplicate skip without remote calls: it performs the lookup
and the create itself (the seen-set is only updated after validation
passes, so a rejected first occurrence never marks the key as seen). -/
theorem c1_counterexample :
    jsToLower leadBadName.email = jsToLower leadA.email ∧
    (validateLead leadBadName).isValid = false ∧
    (processLeads emptyRemote [leadBadName, leadA]).results.map
      (fun r => r.action) = [.error, .created] ∧
    recordCalls emptyRemote [leadBadName, leadA] =
      [[], [.lookup "a@x.com", .create leadA]] ∧
    ¬((processLeads emptyRemote [leadBadName, leadA]).results.map
        (fun r => r.action))[1]? = some .skipped := by
  refine ⟨rfl, by decide, rfl, rfl, by decide⟩

/-- C1 (amended): duplicate gating happens after validation, so the
seen-set only records validation-passing occurrences.  For every key: any
valid occurrence preceded by an earlier valid occurrence of the same key is
resolved as a duplicate skip with no remote call, regardless of how that
earlier occurrence's remote interaction resolved; and the first valid
occurrence of a key always reaches the remote, starting with a lookup.
(Occurrences rejected by validation make no remote call — theorem C2 — and
do not mark the key as seen.) -/
theorem c1_amended_first_valid_occurrence_reaches_remote
    (remote : Remote) (leads : List Lead) (j : Nat) (leadj : Lead)
    (hget : leads[j]? = some leadj)
    (hv : (validateLead leadj).isValid = true) :
    ((∃ i leadi, i < j ∧ leads[i]? = some leadi ∧
        (validateLead leadi).isValid = true ∧
        jsToLower leadi.email = jsToLower leadj.email) →
      (processLeads remote leads).results[j]? =
        some { lead := leadj, action := .skipped, error := none } ∧
      (recordCalls remote leads)[j]? = some []) ∧
    ((∀ i leadi, i < j → leads[i]? = some leadi →
        (validateLead leadi).isValid = true →
        jsToLower leadi.email ≠ jsToLower leadj.email) →
      ∃ res tail, (processLeads remote leads).results[j]? = some res ∧
        (recordCalls remote leads)[j]? =
          some (RemoteCall.lookup leadj.email :: tail)) := by
  constructor
  · intro hdup
    have h := runLeads_dup_skip remote leads 0 [] j leadj hget hv (Or.inl hdup)
    exact ⟨by simp [processLeads, List.getElem?_map, h],
           by simp [recordCalls, List.getElem?_map, h]⟩
  · intro hfirst
    obtain ⟨res, tail, h⟩ := runLeads_first_valid_lookup remote leads 0 [] j
      leadj hget hv hfirst (List.not_mem_nil _)
    exact ⟨res, tail, by simp [processLeads, List.getElem?_map, h],
      by simp [recordCalls, List.getElem?_map, h]⟩

/-- Witness for the amended C1 at the concrete batch `[leadA, leadA2]`
(same key, both valid): the second occurrence is skipped with no remote
call even though the companies differ, and the first performs the lookup. -/
theorem c1_amended_witness :
    ((processLeads emptyRemote [leadA, leadA2]).results[1]? =
      some { lead := leadA2, action := .skipped, error := none } ∧
     (recordCalls emptyRemote [leadA, leadA2])[1]? = some []) ∧
    ∃ res tail, (processLeads emptyRemote [leadA, leadA2]).results[0]? =
        some res ∧
      (recordCalls emptyRemote [leadA, leadA2])[0]? =
        some (RemoteCall.lookup leadA.email :: tail) := by
  constructor
  · exact (c1_amended_first_valid_occurrence_reaches_remote emptyRemote
      [leadA, leadA2] 1 leadA2 rfl (by decide)).1
      ⟨0, leadA, Nat.zero_lt_one, rfl, by decide, by decide⟩
  · exact (c1_amended_first_valid_occurrence_reaches_remote emptyRemote
      [leadA, leadA2] 0 leadA rfl (by decide)).2
      (fun i leadi hi _ _ => absurd hi (Nat.not_lt_zero i))

/-- `validateLead` never fails fast: each applicable rule contributes its
message to the error list, whatever the other rules did. -/
theorem validateLead_collects (lead : Lead) :
    (isEmptyStr lead.name = true →
      "Name is required" ∈ (validateLead lead).errors) ∧
    (isEmptyStr lead.company = true →
      "Company is required" ∈ (validateLead lead).errors) ∧
    (emailMatches lead.email = false →
      "Invalid email format" ∈ (validateLead lead).errors) ∧
    (isEmptyStr lead.source = true →
      "Source is required" ∈ (validateLead lead).errors) ∧
    (isEmptyStr lead.source = false → VALID_SOURCES.contains lead.source = false →
      sourceListMessage ∈ (validateLead lead).errors) := by
  refine ⟨fun h => ?_, fun h => ?_, fun h => ?_, fun h => ?_, fun h h' => ?_⟩ <;>
    simp [validateLead, h]
  exact Or.inr (Or.inr (Or.inr (by simpa using h')))

/-- C2: a lead that fails validation yields an error outcome whose message
joins every applicable rule's violation message, and no lookup, create or
update call is made for it. -/
theorem c2_rejected_carries_all_messages_no_calls
    (remote : Remote) (leads : List Lead) (i : Nat) (lead : Lead)
    (hget : leads[i]? = some lead)
    (hinv : (validateLead lead).isValid = false) :
    (processLeads remote leads).results[i]? =
      some { lead := lead, action := .error
             error := some (String.intercalate "; " (validateLead lead).errors) } ∧
    (recordCalls remote leads)[i]? = some [] ∧
    (isEmptyStr lead.name = true →
      "Name is required" ∈ (validateLead lead).errors) ∧
    (isEmptyStr lead.company = true →
      "Company is required" ∈ (validateLead lead).errors) ∧
    (emailMatches lead.email = false →
      "Invalid email format" ∈ (validateLead lead).errors) ∧
    (isEmptyStr lead.source = true →
      "Source is required" ∈ (validateLead lead).errors) ∧
    (isEmptyStr lead.source = false → VALID_SOURCES.contains lead.source = false →
      sourceListMessage ∈ (validateLead lead).errors) := by
  have h := runLeads_invalid_at remote leads 0 [] i lead hget hinv
  have hc := validateLead_collects lead
  exact ⟨by simp [processLeads, List.getElem?_map, h],
         by simp [recordCalls, List.getElem?_map, h],
         hc.1, hc.2.1, hc.2.2.1, hc.2.2.2.1, hc.2.2.2.2⟩

/-- Witness for C2 at the concrete batch `[leadBadName]`: the sole record is
rejected with the "Name is required" message and makes no remote call. -/
theorem c2_witness :
    (processLeads emptyRemote [leadBadName]).results[0]? =
      some { lead := leadBadName, action := .error
             error := some "Name is required" } ∧
    (recordCalls emptyRemote [leadBadName])[0]? = some [] ∧
    "Name is required" ∈ (validateLead leadBadName).errors := by
  have h := c2_rejected_carries_all_messages_no_calls emptyRemote
    [leadBadName] 0 leadBadName rfl (by decide)
  exact ⟨by simpa using h.1, h.2.1, h.2.2.1 (by decide)⟩

/-- C3: for a valid, non-duplicate lead whose lookup finds an existing
record, `leadsMatch` compares exactly the four normalized fields (name;
email lowercased; company trimmed and whitespace-collapsed; source); a full
match yields a skipped outcome whose only remote call is the lookup (no
create or update), and any difference yields — when the update succeeds —
an updated outcome whose call list is the lookup followed by the update. -/
theorem c3_identical_skips_differing_updates
    (remote : Remote) (seen : List String) (ctr : Nat) (lead existing : Lead)
    (hv : (validateLead lead).isValid = true)
    (hnd : jsToLower lead.email ∉ seen)
    (hl : remote.onLookup ctr lead.email = .ok (some existing)) :
    (leadsMatch lead existing = true ↔
      (lead.name = existing.name ∧
       jsToLower lead.email = jsToLower existing.email ∧
       normalizeCompany lead.company = normalizeCompany existing.company ∧
       lead.source = existing.source)) ∧
    (leadsMatch lead existing = true →
      stepLead remote seen ctr lead =
        { result := { lead := lead, action := .skipped, error := none }
          seen := jsToLower lead.email :: seen, ctr := ctr + 1
          callsMade := [.lookup lead.email] }) ∧
    (leadsMatch lead existing = false → ∀ updated,
      remote.onUpdate (ctr + 1) lead = .ok updated →
      stepLead remote seen ctr lead =
        { result := { lead := lead, action := .updated, error := none }
          seen := jsToLower lead.email :: seen, ctr := ctr + 2
          callsMade := [.lookup lead.email, .update lead] }) := by
  refine ⟨?_, fun hm => ?_, fun hm updated hu => ?_⟩
  · simp [leadsMatch, and_assoc]
  · simp [stepLead, hv, hnd, hl, hm]
  · simp [stepLead, hv, hnd, hl, hm, hu]

/-- Witness for C3: against `foundRemote` (which holds `leadAOld`),
processing `leadAOld` itself skips after the lookup alone, and processing
`leadA` (same identity, different company) updates with the lookup
preceding the update call. -/
theorem c3_witness :
    stepLead foundRemote [] 0 leadAOld =
      { result := { lead := leadAOld, action := .skipped, error := none }
        seen := [jsToLower leadAOld.email], ctr := 1
        callsMade := [.lookup leadAOld.email] } ∧
    stepLead foundRemote [] 0 leadA =
      { result := { lead := leadA, action := .updated, error := none }
        seen := [jsToLower leadA.email], ctr := 2
        callsMade := [.lookup leadA.email, .update leadA] } := by
  constructor
  · exact (c3_identical_skips_differing_updates foundRemote [] 0 leadAOld
      leadAOld (by decide) (List.not_mem_nil _) rfl).2.1 (by decide)
  · exact (c3_identical_skips_differing_updates foundRemote [] 0 leadA
      leadAOld (by decide) (List.not_mem_nil _) rfl).2.2 (by decide) leadA rfl

/-- C4: when the update attempt for a found-and-differing record fails, the
outcome is errored carrying the failure's message — except that a 409
conflict-class failure is reclassified to a (duplicate-style) skipped
outcome.  In both cases the calls made are the lookup then the update. -/
theorem c4_update_conflict_reclassified_to_skip
    (remote : Remote) (seen : List String) (ctr : Nat) (lead existing : Lead)
    (e : ApiError)
    (hv : (validateLead lead).isValid = true)
    (hnd : jsToLower lead.email ∉ seen)
    (hl : remote.onLookup ctr lead.email = .ok (some existing))
    (hm : leadsMatch lead existing = false)
    (hu : remote.onUpdate (ctr + 1) lead = .error e) :
    (e.status = some 409 →
      stepLead remote seen ctr lead =
        { result := { lead := lead, action := .skipped, error := none }
          seen := jsToLower lead.email :: seen, ctr := ctr + 2
          callsMade := [.lookup lead.email, .update lead] }) ∧
    (e.status ≠ some 409 →
      stepLead remote seen ctr lead =
        { result := { lead := lead, action := .error, error := some e.message }
          seen := jsToLower lead.email :: seen, ctr := ctr + 2
          callsMade := [.lookup lead.email, .update lead] }) := by
  constructor <;> intro h409 <;> simp [stepLead, hv, hnd, hl, hm, hu, h409]

/-- Witness for C4: a 409 on update (`updateConflictRemote`) is
reclassified to skipped; a 400 on update (`updateFailRemote`) is errored
with the failure's message. -/
theorem c4_witness :
    stepLead updateConflictRemote [] 0 leadA =
      { result := { lead := leadA, action := .skipped, error := none }
        seen := [jsToLower leadA.email], ctr := 2
        callsMade := [.lookup leadA.email, .update leadA] } ∧
    stepLead updateFailRemote [] 0 leadA =
      { result := { lead := leadA, action := .error
                    error := some badRequestError.message }
        seen := [jsToLower leadA.email], ctr := 2
        callsMade := [.lookup leadA.email, .update leadA] } := by
  constructor
  · exact (c4_update_conflict_reclassified_to_skip updateConflictRemote [] 0
      leadA leadAOld conflictError (by decide) (List.not_mem_nil _) rfl
      (by decide) rfl).1 rfl
  · exact (c4_update_conflict_reclassified_to_skip updateFailRemote [] 0
      leadA leadAOld badRequestError (by decide) (List.not_mem_nil _) rfl
      (by decide) rfl).2 (by decide)

/-- C5: `withRetry` makes at most `MAX_RETRIES = 3` attempts; the delay
computed after the n-th failed retryable attempt is
`baseDelay * 2 ^ (n - 1)` (so the delays of a run are exactly
`baseDelay * 2 ^ i` for `i < calls - 1`); and when all three attempts fail
retryably the wrapper raises the aggregate error naming the attempt count
and the last underlying cause, never a silent success. -/
theorem c5_retry_at_most_three_backoff_aggregate {α : Type}
    (fn : Nat → Except ApiError α) (baseDelay : Nat) :
    1 ≤ (withRetry fn baseDelay).calls ∧
    (withRetry fn baseDelay).calls ≤ MAX_RETRIES ∧
    (withRetry fn baseDelay).delays =
      (List.range ((withRetry fn baseDelay).calls - 1)).map
        (fun i => baseDelay * 2 ^ i) ∧
    (∀ e1 e2 e3, fn 1 = .error e1 → isRetryable e1 = true →
      fn 2 = .error e2 → isRetryable e2 = true →
      fn 3 = .error e3 → isRetryable e3 = true →
      (withRetry fn baseDelay).result = .error (exhaustedError (some e3)) ∧
      (exhaustedError (some e3)).message =
        "Max retries exhausted after " ++ toString MAX_RETRIES ++
          " attempts. Last error: " ++ e3.message) := by
  have hr : List.range' 1 MAX_RETRIES = [1, 2, 3] := rfl
  cases h1 : fn 1 with
  | ok v =>
    refine ⟨?_, ?_, ?_, fun e1 _ _ he1 _ _ _ _ _ => ?_⟩ <;>
      simp_all [withRetry, retryGo, hr, MAX_RETRIES]
  | error e1 =>
    by_cases hr1 : isRetryable e1
    · cases h2 : fn 2 with
      | ok v =>
        refine ⟨?_, ?_, ?_, fun e1' e2' _ he1 _ he2 _ _ _ => ?_⟩ <;>
          simp_all [withRetry, retryGo, hr, MAX_RETRIES, List.range_succ]
      | error e2 =>
        by_cases hr2 : isRetryable e2
        · cases h3 : fn 3 with
          | ok v =>
            refine ⟨?_, ?_, ?_, fun e1' e2' e3' _ _ _ _ he3 _ => ?_⟩ <;>
              simp_all [withRetry, retryGo, hr, MAX_RETRIES, List.range_succ]
          | error e3 =>
            by_cases hr3 : isRetryable e3 <;>
              refine ⟨?_, ?_, ?_, fun e1' e2' e3' _ _ _ _ he3 hre3 => ?_⟩ <;>
                simp_all [withRetry, retryGo, hr, MAX_RETRIES, List.range_succ,
                  exhaustedError]
        · refine ⟨?_, ?_, ?_, fun e1' e2' e3' _ _ he2 hre2 _ _ => ?_⟩ <;>
            simp_all [withRetry, retryGo, hr, MAX_RETRIES, List.range_succ]
    · refine ⟨?_, ?_, ?_, fun e1' e2' e3' he1 hre1 _ _ _ _ => ?_⟩ <;>
        simp_all [withRetry, retryGo, hr, MAX_RETRIES, List.range_succ]

/-- Witness for C5 at a concrete oracle: with every attempt failing with a
retryable 500 and a 1000ms base delay, the wrapper makes 3 calls, waits
1000ms then 2000ms, and surfaces the aggregate message. -/
theorem c5_witness :
    1 ≤ (withRetry (fun _ => (.error serverError : Except ApiError Lead))
          1000).calls ∧
    (withRetry (fun _ => (.error serverError : Except ApiError Lead))
        1000).calls = 3 ∧
    (withRetry (fun _ => (.error serverError : Except ApiError Lead))
        1000).delays = [1000, 2000] ∧
    (withRetry (fun _ => (.error serverError : Except ApiError Lead))
        1000).result =
      .error { message := "Max retries exhausted after 3 attempts. Last error: Request failed with status code 500"
               status := none, code := none, isAxiosError := false } := by
  have h := c5_retry_at_most_three_backoff_aggregate
    (fun _ => (.error serverError : Except ApiError Lead)) 1000
  have hagg := h.2.2.2 serverError serverError serverError rfl (by decide)
    rfl (by decide) rfl (by decide)
  exact ⟨h.1, by decide, by decide, by
    rw [hagg.1]
    rfl⟩

/-- C6: `isRetryable` accepts exactly the spec's retryable class —
connection-timeout codes, the rate-limit status, or one of the transient
5xx statuses — and a non-retryable failure propagates unchanged after
exactly one attempt with no delay computed. -/
theorem c6_retryable_classification_and_fail_fast :
    (∀ e : ApiError, isRetryable e = true ↔ retryableSpec e) ∧
    (∀ (α : Type) (fn : Nat → Except ApiError α) (baseDelay : Nat)
      (e : ApiError), fn 1 = .error e → isRetryable e = false →
      withRetry fn baseDelay =
        { result := .error e, calls := 1, delays := [] }) := by
  constructor
  · intro e
    unfold isRetryable retryableSpec
    cases hc : e.code <;> cases hs : e.status <;>
      simp [Bool.and_eq_true, decide_eq_true_eq, List.elem_iff,
        RETRYABLE_ERROR_CODES, RETRYABLE_STATUS_CODES]
    · omega
    · rintro (rfl | rfl) <;> decide
    · constructor
      · rintro (⟨_, h⟩ | ⟨_, h⟩)
        · exact Or.inl h
        · exact Or.inr h
      · rintro ((rfl | rfl) | h)
        · exact Or.inl ⟨by decide, Or.inl rfl⟩
        · exact Or.inl ⟨by decide, Or.inr rfl⟩
        · exact Or.inr ⟨by omega, h⟩
  · intro α fn baseDelay e h1 hnr
    have hr : List.range' 1 MAX_RETRIES = [1, 2, 3] := rfl
    simp [withRetry, retryGo, hr, h1, hnr]

/-- Witness for C6: a 400 is non-retryable and propagates after one attempt
with no delay; a 429, a 500 and a timeout code are retryable. -/
theorem c6_witness :
    (isRetryable badRequestError = true ↔ retryableSpec badRequestError) ∧
    withRetry (fun _ => (.error badRequestError : Except ApiError Lead))
        1000 =
      { result := .error badRequestError, calls := 1, delays := [] } ∧
    isRetryable badRequestError = false ∧
    isRetryable serverError = true ∧
    isRetryable { message := "rate limited", status := some 429, code := none
                  isAxiosError := true } = true ∧
    isRetryable { message := "timeout", status := none
                  code := some "ETIMEDOUT", isAxiosError := false } = true := by
  refine ⟨(c6_retryable_classification_and_fail_fast).1 badRequestError,
    (c6_retryable_classification_and_fail_fast).2 Lead
      (fun _ => .error badRequestError) 1000 badRequestError rfl (by decide),
    by decide, by decide, by decide, by decide⟩

/-- C7: a successful reply that, after the optional unwrapping of a nested
`lead` field, lacks `name` or `email` is rejected with the
malformed-response error; that error is never classified retryable, so a
create/update whose reply is malformed stops after one attempt with no
delay (the remote is not re-called); and at the engine level the error
surfaces as that record's error outcome. -/
theorem c7_malformed_response_never_retried
    (o : List (String × JVal))
    (hmiss : hasKey (unwrapLead o) "name" = false ∨
      hasKey (unwrapLead o) "email" = false) :
    validateLeadResponse (.obj o) = .error malformedError ∧
    isRetryable malformedError = false ∧
    (∀ baseDelay,
      withRetry (fun _ => mutationAttempt (.success (.obj o))) baseDelay =
        { result := .error malformedError, calls := 1, delays := [] }) ∧
    (∀ (remote : Remote) (seen : List String) (ctr : Nat) (lead : Lead),
      (validateLead lead).isValid = true →
      jsToLower lead.email ∉ seen →
      remote.onLookup ctr lead.email = .error malformedError →
      (stepLead remote seen ctr lead).result =
        { lead := lead, action := .error
          error := some malformedError.message }) := by
  have hand : (hasKey (unwrapLead o) "name" &&
      hasKey (unwrapLead o) "email") = false := by
    rcases hmiss with h | h <;> simp [h]
  have hval : validateLeadResponse (JVal.obj o) = .error malformedError := by
    unfold validateLeadResponse
    cases hg : getField o "lead" with
    | some v =>
      cases v with
      | obj l => simp [hg, extractLeadFromResponse, hand]
      | str s =>
        have huw : unwrapLead o = o := by simp [unwrapLead, hg]
        rw [huw] at hand
        simp [hg, hand]
      | bool b =>
        have huw : unwrapLead o = o := by simp [unwrapLead, hg]
        rw [huw] at hand
        simp [hg, hand]
      | num n =>
        have huw : unwrapLead o = o := by simp [unwrapLead, hg]
        rw [huw] at hand
        simp [hg, hand]
      | null =>
        have huw : unwrapLead o = o := by simp [unwrapLead, hg]
        rw [huw] at hand
        simp [hg, hand]
    | none =>
      have huw : unwrapLead o = o := by simp [unwrapLead, hg]
      rw [huw] at hand
      simp [hg, hand]
  refine ⟨hval, by decide, fun baseDelay => ?_, fun remote seen ctr lead hv hnd hl => ?_⟩
  · have hr : List.range' 1 MAX_RETRIES = [1, 2, 3] := rfl
    have hm : mutationAttempt (.success (.obj o)) = .error malformedError := by
      simp [mutationAttempt, hval]
    have hnr : isRetryable malformedError = false := by decide
    simp [withRetry, retryGo, hr, hm, hnr]
  · simp [stepLead, hv, hnd, hl, malformedError]

/-- Witness for C7 at the concrete reply `{ lead: { name: "A" } }`: the
email field is missing after unwrapping, so validation rejects it, a
mutation wrapped around it makes exactly one attempt, and a lead whose
lookup throws the malformed error ends as an error outcome. -/
theorem c7_witness :
    validateLeadResponse (.obj [("lead", .obj [("name", .str "A")])]) =
      .error malformedError ∧
    isRetryable malformedError = false ∧
    withRetry (fun _ =>
        mutationAttempt (.success (.obj [("lead", .obj [("name", .str "A")])])))
        1000 =
      { result := .error malformedError, calls := 1, delays := [] } ∧
    (stepLead
        { onLookup := fun _ _ => .error malformedError
          onCreate := fun _ l => .ok l
          onUpdate := fun _ l => .ok l } [] 0 leadA).result =
      { lead := leadA, action := .error
        error := some malformedError.message } := by
  have h := c7_malformed_response_never_retried
    [("lead", .obj [("name", .str "A")])] (Or.inr rfl)
  exact ⟨h.1, h.2.1, h.2.2.1 1000,
    h.2.2.2 _ [] 0 leadA (by decide) (List.not_mem_nil _) rfl⟩

/-- C8: `lookupLead` maps both negative-result signals — a reply whose
`found` field is the boolean `false`, and a thrown axios error with status
404 — to the same single "not found" value (`.ok none`), while every other
thrown error propagates as a failure; no third outcome exists between
"not found" and failure. -/
theorem c8_not_found_signals_unified :
    (∀ o : List (String × JVal), getField o "found" = some (.bool false) →
      lookupAttempt (.success (.obj o)) = .ok none) ∧
    (∀ e : ApiError, e.isAxiosError = true → e.status = some 404 →
      lookupAttempt (.failure e) = .ok none) ∧
    (∀ e : ApiError, ¬(e.isAxiosError = true ∧ e.status = some 404) →
      lookupAttempt (.failure e) = .error e) := by
  refine ⟨fun o h => ?_, fun e h1 h2 => ?_, fun e h => ?_⟩
  · simp [lookupAttempt, h]
  · simp [lookupAttempt, h1, h2]
  · have hcond : (e.isAxiosError && decide (e.status = some 404)) = false := by
      rcases not_and_or.mp h with h' | h' <;> simp [h']
    simp only [lookupAttempt, hcond]
    simp

/-- Witness for C8: `{ found: false }` and an axios 404 both resolve to
"not found", while a 500 failure stays a failure. -/
theorem c8_witness :
    lookupAttempt (.success (.obj [("found", .bool false)])) = .ok none ∧
    lookupAttempt (.failure { message := "Request failed with status code 404"
                              status := some 404, code := none
                              isAxiosError := true }) = .ok none ∧
    lookupAttempt (.failure serverError) = .error serverError := by
  exact ⟨c8_not_found_signals_unified.1 [("found", .bool false)] rfl,
    c8_not_found_signals_unified.2.1 _ rfl rfl,
    c8_not_found_signals_unified.2.2 serverError (by decide)⟩

/-- C10: a successful reply exposing `name` and `email` but lacking
`company`/`source` is accepted, not treated as malformed.  A nested `lead`
reply is rebuilt with the empty string substituted for each missing
`company`/`source` field; a flat reply is returned as-is, with no
substitution. -/
theorem c10_missing_company_source_accepted
    (l o : List (String × JVal)) :
    (getField o "lead" = some (.obj l) → hasKey l "name" = true →
      hasKey l "email" = true → hasKey l "company" = false →
      hasKey l "source" = false →
      validateLeadResponse (.obj o) =
        .ok (.obj [("name", .str (strOrEmpty (getField l "name"))),
                   ("email", .str (strOrEmpty (getField l "email"))),
                   ("company", .str ""), ("source", .str "")])) ∧
    ((∀ l', getField o "lead" ≠ some (.obj l')) → hasKey o "name" = true →
      hasKey o "email" = true →
      validateLeadResponse (.obj o) = .ok (.obj o)) := by
  constructor
  · intro hg hname hemail hcomp hsrc
    have huw : unwrapLead o = l := by simp [unwrapLead, hg]
    have hcompn : getField l "company" = none := by
      unfold hasKey at hcomp
      unfold getField
      cases hf : List.find? (fun p => p.1 = "company") l <;> simp_all [getField]
    have hsrcn : getField l "source" = none := by
      unfold hasKey at hsrc
      unfold getField
      cases hf : List.find? (fun p => p.1 = "source") l <;> simp_all [getField]
    unfold validateLeadResponse
    simp [hg, extractLeadFromResponse, huw, hname, hemail, hcompn, hsrcn,
      strOrEmpty]
  · intro hno hname hemail
    unfold validateLeadResponse
    cases hg : getField o "lead" with
    | some v =>
      cases v with
      | obj l' => exact absurd hg (hno l')
      | str s => simp [hg, hname, hemail]
      | bool b => simp [hg, hname, hemail]
      | num n => simp [hg, hname, hemail]
      | null => simp [hg, hname, hemail]
    | none => simp [hg, hname, hemail]

/-- Witness for C10: the nested reply `{ lead: { name, email } }` is
accepted with `company` and `source` filled with `""`; the flat reply
`{ name, email }` is accepted unchanged (no substitution). -/
theorem c10_witness :
    validateLeadResponse
        (.obj [("lead", .obj [("name", .str "B"), ("email", .str "b@x.com")])]) =
      .ok (.obj [("name", .str "B"), ("email", .str "b@x.com"),
                 ("company", .str ""), ("source", .str "")]) ∧
    validateLeadResponse (.obj [("name", .str "B"), ("email", .str "b@x.com")]) =
      .ok (.obj [("name", .str "B"), ("email", .str "b@x.com")]) := by
  constructor
  · exact (c10_missing_company_source_accepted
      [("name", .str "B"), ("email", .str "b@x.com")]
      [("lead", .obj [("name", .str "B"), ("email", .str "b@x.com")])]).1
      rfl rfl rfl rfl rfl
  · exact (c10_missing_company_source_accepted []
      [("name", .str "B"), ("email", .str "b@x.com")]).2
      (fun l' h => by simp [getField] at h) rfl rfl

/-- C9: every input batch yields exactly one terminal outcome per input
record, in input order (the i-th result is about the i-th lead), an errored
record never aborts the run, and the summary is a pure fold over the
outcomes, with `total` equal to the number of input records and to
`created + updated + skipped + errors`. -/
theorem c9_one_outcome_per_record_and_summary_fold
    (remote : Remote) (leads : List Lead) :
    (processLeads remote leads).results.length = leads.length ∧
    (∀ i : Nat,
      (((processLeads remote leads).results)[i]?).map (fun r => r.lead) =
        leads[i]?) ∧
    (processLeads remote leads).summary.total = leads.length ∧
    (processLeads remote leads).summary.created +
      (processLeads remote leads).summary.updated +
      (processLeads remote leads).summary.skipped +
      (processLeads remote leads).summary.errors =
      (processLeads remote leads).summary.total := by
  refine ⟨?_, ?_, ?_, ?_⟩
  · simp [processLeads, runLeads_length]
  · intro i
    simp only [processLeads, List.getElem?_map]
    rw [← runLeads_lead remote leads 0 [] i]
    cases (runLeads remote 0 [] leads)[i]? <;> rfl
  · simp [processLeads, calcSummary, runLeads_length]
  · simp only [processLeads, calcSummary]
    exact action_counts _

end LeadSync
